import Mathlib

/-!
# Verification of the pizero-jukebox control program

A shallow embedding of `jukebox.py` (classes `JukeBox`, `JukeBox.Audio`,
`JukeBox.Player`, and the `run` main loop) together with proofs settling
the specification claims about it.

Conventions of the embedding:
* Python strings are Lean `String`s; character-level operations work on
  `String.data` (the list of characters).
* Python machine-free integers are `Int` / `Nat` (Python ints are unbounded,
  so no modular wrap is modelled).
* Fallible operations return `Except` / `Option`.
* Randomness (`random.choice`) is modelled by an explicit index argument,
  reduced modulo the length of the candidate list; every candidate is
  reachable for some index value.
* Side-effecting control flow (the supervisor loop, setup/teardown) is
  modelled as emission of explicit event traces.
-/

/-! ## Constants (`Consts` in `jukebox.py`) -/

/-- `Consts.PLAYABLE_FILE_TYPES` — the tuple of playable file suffixes. -/
def PLAYABLE_FILE_TYPES : List String :=
  [".mp3", ".m4a", ".webm", ".wav", ".aac", ".ogg"]

/-- `Consts.BASE_VOLUME`. -/
def BASE_VOLUME : Int := 40

/-- `Consts.VOLUME_STEP`. -/
def VOLUME_STEP : Nat := 5

/-- `Consts.PIN_HANDLERS` — handler names, bound positionally to pins. -/
def PIN_HANDLERS : List String := ["play", "volume_up", "volume_down"]

/-- `Consts.DEFAULT_PINS`. -/
def DEFAULT_PINS : List Nat := [7, 11, 13]

/-! ## Track source: `JukeBox.get_song`

`get_song` walks `songs_dir` recursively (`os.walk`), keeps the file names
that satisfy `f.endswith(Consts.PLAYABLE_FILE_TYPES)`, joins each with its
directory, and returns `random.choice(files)`.  `random.choice` raises
`IndexError` on an empty list; the spec names this failure
`NoPlayableFiles`. -/

/-- One `(root, dirs, files)` triple yielded by `os.walk` (the unused
`dirs` component is omitted). -/
structure WalkEntry where
  root : String
  files : List String
deriving DecidableEq

/-- Errors of the embedded program. -/
inductive JukeErr
  | noPlayableFiles
  | evalFailure
  | intParseFailure
  | emptyMixer
deriving DecidableEq

/-- Python `f.endswith(t)` for a single suffix `t`: case-sensitive
suffix test on the character list. -/
def pyEndswith (s suffix : String) : Bool :=
  suffix.data.isSuffixOf s.data

/-- The filter in `get_song`: `f.endswith(Consts.PLAYABLE_FILE_TYPES)` —
Python `endswith` with a tuple argument is true when ANY listed suffix
matches (case-sensitively). -/
def endswithPlayable (f : String) : Bool :=
  PLAYABLE_FILE_TYPES.any (fun ext => pyEndswith f ext)

/-- `os.path.join(root, x)` for a relative `x` and separator-free join. -/
def path_join (root x : String) : String :=
  root ++ "/" ++ x

/-- The accumulation loop of `get_song`: `files.extend(...)` over every
walk entry, starting from the empty list. -/
def collectFiles (walk : List WalkEntry) : List String :=
  walk.foldl
    (fun files e => files ++ (e.files.filter endswithPlayable).map (path_join e.root))
    []

/-- `JukeBox.get_song`, with the walk result and the random draw made
explicit: `random.choice(files)` is modelled as indexing by `idx` modulo
the number of candidates (uniform choice means every index occurs); on an
empty candidate list `random.choice` fails (`NoPlayableFiles`). -/
def get_song (walk : List WalkEntry) (idx : Nat) : Except JukeErr String :=
  match collectFiles walk with
  | [] => Except.error JukeErr.noPlayableFiles
  | f :: fs =>
      Except.ok ((f :: fs).get ⟨idx % (f :: fs).length, Nat.mod_lt _ (Nat.succ_pos _)⟩)

/-- ASCII lowercasing of one character (enough for the extension set,
which is pure ASCII). -/
def lowerChar (c : Char) : Char :=
  if 'A' ≤ c ∧ c ≤ 'Z' then Char.ofNat (c.toNat + 32) else c

/-- The spec's candidate predicate, written from the spec's words: the
extension is compared **case-insensitively** against the playable set. -/
def playableCaseInsensitive (f : String) : Bool :=
  PLAYABLE_FILE_TYPES.any (fun ext => ext.data.isSuffixOf (f.data.map lowerChar))

lemma foldl_append_flatMap (g : WalkEntry → List String) :
    ∀ (l : List WalkEntry) (acc : List String),
      List.foldl (fun files e => files ++ g e) acc l = acc ++ l.flatMap g := by
  intro l
  induction l with
  | nil => intro acc; simp
  | cons e rest ih => intro acc; simp [List.foldl_cons, ih]

lemma collectFiles_eq_flatMap (walk : List WalkEntry) :
    collectFiles walk
      = walk.flatMap (fun e => (e.files.filter endswithPlayable).map (path_join e.root)) := by
  simpa [collectFiles] using
    foldl_append_flatMap (fun e => (e.files.filter endswithPlayable).map (path_join e.root)) walk []

lemma mem_collectFiles (walk : List WalkEntry) (p : String) :
    p ∈ collectFiles walk
      ↔ ∃ e ∈ walk, ∃ f ∈ e.files, endswithPlayable f = true ∧ p = path_join e.root f := by
  simp only [collectFiles_eq_flatMap, List.mem_flatMap, List.mem_map, List.mem_filter]
  constructor
  · rintro ⟨e, he, f, ⟨hf, hpl⟩, rfl⟩
    exact ⟨e, he, f, hf, hpl, rfl⟩
  · rintro ⟨e, he, f, hf, hpl, rfl⟩
    exact ⟨e, he, f, ⟨hf, hpl⟩, rfl⟩

lemma get_song_ok_iff (walk : List WalkEntry) (p : String) :
    (∃ idx, get_song walk idx = Except.ok p) ↔ p ∈ collectFiles walk := by
  unfold get_song
  rcases hc : collectFiles walk with _ | ⟨f, fs⟩
  · simp
  · simp only [Except.ok.injEq]
    constructor
    · rintro ⟨idx, rfl⟩
      exact List.get_mem _ _ _
    · intro hp
      obtain ⟨i, hi⟩ := List.mem_iff_get.mp hp
      refine ⟨i.val, ?_⟩
      have hfin : (⟨i.val % (f :: fs).length, Nat.mod_lt _ (Nat.succ_pos _)⟩ :
          Fin (f :: fs).length) = i :=
        Fin.ext (Nat.mod_eq_of_lt i.isLt)
      rw [hfin, hi]

/-- **C6** — When the recursive walk of `songs_dir` yields zero playable
candidate files, `get_song` fails with `NoPlayableFiles`, whatever the
random draw. -/
theorem c6_empty_walk_no_playable (walk : List WalkEntry) (idx : Nat)
    (h : collectFiles walk = []) :
    get_song walk idx = Except.error JukeErr.noPlayableFiles := by
  unfold get_song
  rw [h]

/-- Witness for C6: a walk whose only file is not playable yields zero
candidates, and `get_song` fails on it. -/
theorem c6_empty_walk_no_playable_witness :
    collectFiles [⟨"/home/pi/songs", ["notes.txt"]⟩] = [] ∧
      get_song [⟨"/home/pi/songs", ["notes.txt"]⟩] 0 = Except.error JukeErr.noPlayableFiles :=
  ⟨by decide, c6_empty_walk_no_playable [⟨"/home/pi/songs", ["notes.txt"]⟩] 0 (by decide)⟩

/-- **C8 counterexample** — the claim says the extension comparison is
case-insensitive; the code's `endswith` test is case-sensitive.
`"SONG.MP3"` is playable under the spec's case-insensitive predicate, yet
the code collects zero candidates from it and `get_song` fails instead of
returning the file. -/
theorem c8_case_sensitivity_counterexample :
    playableCaseInsensitive "SONG.MP3" = true ∧
      collectFiles [⟨"/home/pi/songs", ["SONG.MP3"]⟩] = [] ∧
      get_song [⟨"/home/pi/songs", ["SONG.MP3"]⟩] 0 = Except.error JukeErr.noPlayableFiles :=
  ⟨by decide, by decide, rfl⟩

/-- **C8 (amended)** — `get_song` can return exactly the paths obtained by
joining a walked directory with a file name that ends, **case-sensitively**,
in one of `{.mp3, .m4a, .webm, .wav, .aac, .ogg}`; every such candidate is
returned for some random draw (selection is by index into the freshly
rebuilt candidate list, hence with replacement). -/
theorem c8_get_song_range (walk : List WalkEntry) (p : String) :
    (∃ idx, get_song walk idx = Except.ok p)
      ↔ ∃ e ∈ walk, ∃ f ∈ e.files, endswithPlayable f = true ∧ p = path_join e.root f := by
  rw [get_song_ok_iff, mem_collectFiles]

/-! ## Mixer control: `JukeBox.Audio.set_volume`

The mixer state is the list of per-channel volumes (`mixer.getvolume()`);
`mixer.setvolume(v)` writes `v` to every channel.  For a string argument
starting with `+` or `-`, the source computes
`eval(f'{max(self.mixer.getvolume())}{volume[0]}{volume[1:]}')`, i.e. it
evaluates the Python expression obtained by concatenating the decimal
rendering of the current maximum volume with the whole argument string.
`eval` is modelled on the fragment it is actually fed here: chains of
decimal integer literals joined by `+`/`-` (with unary signs); any other
character makes the model fail, as the corresponding Python forms raise
(`SyntaxError`/`NameError`) or leave the arithmetic fragment. -/

/-- Decimal digit character (callers only use `d < 10`). -/
def digitChar (d : Nat) : Char :=
  match d with
  | 0 => '0' | 1 => '1' | 2 => '2' | 3 => '3' | 4 => '4'
  | 5 => '5' | 6 => '6' | 7 => '7' | 8 => '8' | _ => '9'

/-- Decimal rendering of a natural number, most significant digit first;
`fuel` bounds the recursion depth structurally (callers pass `n + 1`,
which suffices since `n / 10` drops below any positive fuel fast enough). -/
def natToDigitsAux : Nat → Nat → List Char
  | 0, _ => []
  | fuel + 1, n =>
      if n < 10 then [digitChar n]
      else natToDigitsAux fuel (n / 10) ++ [digitChar (n % 10)]

/-- Decimal rendering of a natural number (`str(n)` for `n ≥ 0`). -/
def natToDigits (n : Nat) : List Char :=
  natToDigitsAux (n + 1) n

/-- Python `str` on an integer: optional minus sign, then decimal digits. -/
def pyStr (n : Int) : String :=
  if n < 0 then "-" ++ String.mk (natToDigits n.natAbs)
  else String.mk (natToDigits n.natAbs)

/-- Python `s.startswith(t)` for a single literal `t`. -/
def pyStartswith (s t : String) : Bool :=
  t.data.isPrefixOf s.data

/-- Tokens of the arithmetic fragment fed to `eval`. -/
inductive Tok
  | plus
  | minus
  | num (n : Nat)
deriving DecidableEq

/-- Value of a digit run, accumulated left to right on top of `acc`. -/
def digitsAccVal (acc : Nat) (cs : List Char) : Nat :=
  cs.foldl (fun a c => a * 10 + (c.toNat - 48)) acc

/-- Value of a digit run. -/
def digitsToNat (cs : List Char) : Nat :=
  digitsAccVal 0 cs

/-- One tokenizer step.  State: tokens so far (newest first) and the digit
run currently being read.  Any character other than a digit, `+` or `-`
is outside the modelled `eval` fragment. -/
def tokStep (st : List Tok × Option Nat) (c : Char) : Option (List Tok × Option Nat) :=
  if c.isDigit then some (st.1, some ((st.2.getD 0) * 10 + (c.toNat - 48)))
  else
    let ts := match st.2 with
      | some n => Tok.num n :: st.1
      | none => st.1
    if c = '+' then some (Tok.plus :: ts, none)
    else if c = '-' then some (Tok.minus :: ts, none)
    else none

/-- Tokenizer fold body (`Option`-propagating). -/
def tokF (st : Option (List Tok × Option Nat)) (c : Char) : Option (List Tok × Option Nat) :=
  st.bind (fun s => tokStep s c)

/-- Run the tokenizer over a character list. -/
def tokFold (cs : List Char) : Option (List Tok × Option Nat) :=
  cs.foldl tokF (some ([], none))

/-- Close the pending digit run, if any. -/
def flushTok (st : List Tok × Option Nat) : List Tok :=
  match st.2 with
  | some n => Tok.num n :: st.1
  | none => st.1

/-- Tokenize a character list into `+`, `-` and number tokens. -/
def tokenize (cs : List Char) : Option (List Tok) :=
  (tokFold cs).map (fun st => (flushTok st).reverse)

/-- Evaluator state: either expecting the next (possibly sign-prefixed)
literal of a `+`/`-` chain, or holding a completed value. -/
inductive EvalSt
  | expect (acc : Int) (sub : Bool) (neg : Bool)
  | val (acc : Int)
deriving DecidableEq

/-- One evaluator step over a token. -/
def evalStep (s : EvalSt) (t : Tok) : Option EvalSt :=
  match s, t with
  | .expect acc sub neg, .plus => some (.expect acc sub neg)
  | .expect acc sub neg, .minus => some (.expect acc sub (!neg))
  | .expect acc sub neg, .num n =>
      let v : Int := if neg then -(n : Int) else (n : Int)
      some (.val (if sub then acc - v else acc + v))
  | .val _, .num _ => none
  | .val acc, .plus => some (.expect acc false false)
  | .val acc, .minus => some (.expect acc true false)

/-- Evaluator fold body (`Option`-propagating). -/
def evalF (st : Option EvalSt) (t : Tok) : Option EvalSt :=
  st.bind (fun s => evalStep s t)

/-- Run the evaluator over a token list. -/
def evalFold (ts : List Tok) : Option EvalSt :=
  ts.foldl evalF (some (.expect 0 false false))

/-- Value of a token list, when it forms a complete `+`/`-` chain. -/
def evalToks (ts : List Tok) : Option Int :=
  match evalFold ts with
  | some (.val a) => some a
  | _ => none

/-- Python `eval`, restricted to the `+`/`-` integer chains the mixer code
builds; other inputs fail. -/
def pyEvalArith (s : String) : Option Int :=
  (tokenize s.data).bind evalToks

/-- Python `int(s)` for the strings reaching that branch (no leading sign,
as sign-led strings take the `eval` branch): a non-empty digit run. -/
def pyInt (s : String) : Option Int :=
  if s.data.isEmpty then none
  else if s.data.all Char.isDigit then some ((digitsToNat s.data : Nat) : Int)
  else none

/-- Python `max` over a list (fails on the empty list). -/
def pyMax : List Int → Option Int
  | [] => none
  | x :: xs => some (xs.foldl max x)

/-- `alsaaudio` `mixer.setvolume(v)`: writes `v` to every channel. -/
def setvolume (channels : List Int) (v : Int) : List Int :=
  channels.map (fun _ => v)

/-- The argument of `set_volume`: either a Python `int` or a `str`. -/
inductive VolumeArg
  | int (n : Int)
  | str (s : String)

/-- `JukeBox.Audio.set_volume`.  For a string starting with `+` or `-`:
`current_volume = max(self.mixer.getvolume())`, then
`volume = eval(f'{current_volume}{volume[0]}{volume[1:]}')` — the f-string
is exactly `pyStr current_volume ++ s` — and the result is written to the
mixer unchanged (the source performs **no clamping**).  Other strings go
through `int(volume)`. -/
def set_volume (channels : List Int) (volume : VolumeArg) : Except JukeErr (List Int) :=
  match volume with
  | .int v => Except.ok (setvolume channels v)
  | .str s =>
      if pyStartswith s "+" || pyStartswith s "-" then
        match pyMax channels with
        | none => Except.error JukeErr.emptyMixer
        | some current_volume =>
            match pyEvalArith (pyStr current_volume ++ s) with
            | some v => Except.ok (setvolume channels v)
            | none => Except.error JukeErr.evalFailure
      else
        match pyInt s with
        | some v => Except.ok (setvolume channels v)
        | none => Except.error JukeErr.intParseFailure

/-- The spec's relative-delta grammar, written from the spec's words: a
sign character followed by a non-negative integer, nothing else. -/
def isSignedDelta (s : String) : Bool :=
  match s.data with
  | [] => false
  | c :: rest => (c == '+' || c == '-') && !rest.isEmpty && rest.all Char.isDigit

lemma charVal_digitChar (d : Nat) (h : d < 10) : (digitChar d).toNat - 48 = d := by
  interval_cases d <;> decide

lemma isDigit_digitChar (d : Nat) (h : d < 10) : (digitChar d).isDigit = true := by
  interval_cases d <;> decide

lemma digitsAccVal_append (acc : Nat) (a b : List Char) :
    digitsAccVal acc (a ++ b) = digitsAccVal (digitsAccVal acc a) b := by
  simp [digitsAccVal, List.foldl_append]

lemma natToDigitsAux_spec :
    ∀ (fuel n : Nat), n < fuel →
      natToDigitsAux fuel n ≠ [] ∧
        (natToDigitsAux fuel n).all Char.isDigit = true ∧
        digitsAccVal 0 (natToDigitsAux fuel n) = n := by
  intro fuel
  induction fuel with
  | zero => intro n h; omega
  | succ f ih =>
    intro n h
    by_cases h10 : n < 10
    · refine ⟨by simp [natToDigitsAux, h10], ?_, ?_⟩
      · simp [natToDigitsAux, h10, isDigit_digitChar n h10]
      · simp [natToDigitsAux, h10, digitsAccVal, charVal_digitChar n h10]
    · have hlt : n / 10 < n := Nat.div_lt_self (by omega) (by omega)
      have hdiv : n / 10 < f := by omega
      obtain ⟨ihne, ihdig, ihval⟩ := ih (n / 10) hdiv
      have hmod : n % 10 < 10 := Nat.mod_lt _ (by omega)
      refine ⟨by simp [natToDigitsAux, h10], ?_, ?_⟩
      · simp [natToDigitsAux, h10, List.all_append, ihdig, isDigit_digitChar _ hmod]
      · rw [natToDigitsAux, if_neg h10, digitsAccVal_append, ihval]
        simp [digitsAccVal, charVal_digitChar _ hmod]
        omega

lemma natToDigits_ne_nil (n : Nat) : natToDigits n ≠ [] :=
  (natToDigitsAux_spec (n + 1) n (by omega)).1

lemma natToDigits_all_digits (n : Nat) : (natToDigits n).all Char.isDigit = true :=
  (natToDigitsAux_spec (n + 1) n (by omega)).2.1

lemma digitsAccVal_natToDigits (n : Nat) : digitsAccVal 0 (natToDigits n) = n :=
  (natToDigitsAux_spec (n + 1) n (by omega)).2.2

lemma tokFold_digits :
    ∀ (cs : List Char), cs ≠ [] → cs.all Char.isDigit = true →
      ∀ (ts : List Tok) (cur : Option Nat),
        List.foldl tokF (some (ts, cur)) cs = some (ts, some (digitsAccVal (cur.getD 0) cs)) := by
  intro cs
  induction cs with
  | nil => intro h; exact absurd rfl h
  | cons c rest ih =>
    intro _ hall ts cur
    rw [List.all_cons, Bool.and_eq_true] at hall
    have hstep : tokF (some (ts, cur)) c
        = some (ts, some ((cur.getD 0) * 10 + (c.toNat - 48))) := by
      simp [tokF, tokStep, hall.1]
    rcases Decidable.em (rest = []) with hre | hre
    · subst hre
      simp [hstep, digitsAccVal]
    · rw [List.foldl_cons, hstep, ih hre hall.2]
      simp [digitsAccVal]

lemma data_pyStr (M : Int) :
    (pyStr M).data = (if M < 0 then ['-'] else []) ++ natToDigits M.natAbs := by
  by_cases hM : M < 0 <;> simp [pyStr, hM, String.data_append]

lemma tokFold_pyStr (M : Int) :
    tokFold (pyStr M).data
      = some ((if M < 0 then [Tok.minus] else []), some M.natAbs) := by
  rw [tokFold, data_pyStr]
  by_cases hM : M < 0
  · simp only [hM, if_true, List.singleton_append, List.foldl_cons]
    have hstep : tokF (some ([], none)) '-' = some ([Tok.minus], none) := by decide
    rw [hstep,
      tokFold_digits _ (natToDigits_ne_nil _) (natToDigits_all_digits _) [Tok.minus] none]
    simp [digitsToNat, digitsAccVal_natToDigits]
  · simp only [hM, if_false, List.nil_append]
    rw [tokFold_digits _ (natToDigits_ne_nil _) (natToDigits_all_digits _) [] none]
    simp [digitsToNat, digitsAccVal_natToDigits]

lemma tokenize_expr (M : Int) (op : Char) (dsl : List Char)
    (hop : op = '+' ∨ op = '-') (h1 : dsl ≠ []) (h2 : dsl.all Char.isDigit = true) :
    tokenize ((pyStr M).data ++ op :: dsl)
      = some ((if M < 0 then [Tok.minus] else []).reverse ++
          [Tok.num M.natAbs, if op = '+' then Tok.plus else Tok.minus,
            Tok.num (digitsToNat dsl)]) := by
  have hfold := tokFold_pyStr M
  rw [tokFold] at hfold
  have hopd : op.isDigit = false := by
    rcases hop with h | h <;> subst h <;> decide
  have hstep : tokF (some ((if M < 0 then [Tok.minus] else []), some M.natAbs)) op
      = some ((if op = '+' then Tok.plus else Tok.minus)
            :: Tok.num M.natAbs :: (if M < 0 then [Tok.minus] else []), none) := by
    rcases hop with h | h <;> subst h <;> simp [tokF, tokStep]
  rw [tokenize, tokFold, List.foldl_append, hfold, List.foldl_cons, hstep,
    tokFold_digits _ h1 h2 _ none]
  simp [flushTok, digitsToNat]

lemma pyEvalArith_expr (M : Int) (op : Char) (dsl : List Char)
    (hop : op = '+' ∨ op = '-') (h1 : dsl ≠ []) (h2 : dsl.all Char.isDigit = true) :
    (tokenize ((pyStr M).data ++ op :: dsl)).bind evalToks
      = some (if op = '+' then M + (digitsToNat dsl : Int)
              else M - (digitsToNat dsl : Int)) := by
  rw [tokenize_expr M op dsl hop h1 h2, Option.some_bind]
  by_cases hM : M < 0 <;> rcases hop with h | h <;> subst h <;>
    simp [hM, evalToks, evalFold, evalF, evalStep, -Int.natCast_natAbs] <;> omega

lemma foldl_max_const (c : Int) :
    ∀ (l : List Int), (l.map (fun _ => c)).foldl max c = c := by
  intro l
  induction l with
  | nil => rfl
  | cons x xs ih => rw [List.map_cons, List.foldl_cons, max_self]; exact ih

lemma pyMax_map_const (l : List Int) (c : Int) (h : l ≠ []) :
    pyMax (l.map (fun _ => c)) = some c := by
  rcases l with _ | ⟨x, xs⟩
  · exact absurd rfl h
  · rw [List.map_cons, pyMax, Option.some_inj]
    exact foldl_max_const c xs

lemma data_sign_append (op : Char) (ds : String) :
    (String.singleton op ++ ds).data = op :: ds.data := by
  simp [String.data_append, String.singleton]

lemma pyStartswith_sign (op : Char) (t : String) (ds : String) (ht : t.data = [op]) :
    pyStartswith (String.singleton op ++ ds) t = true := by
  simp [pyStartswith, data_sign_append, ht, List.isPrefixOf]

lemma set_volume_delta (channels : List Int) (M : Int) (op : Char) (ds : String)
    (hop : op = '+' ∨ op = '-') (hM : pyMax channels = some M)
    (h1 : ds.data ≠ []) (h2 : ds.data.all Char.isDigit = true) :
    set_volume channels (VolumeArg.str (String.singleton op ++ ds))
      = Except.ok (channels.map (fun _ =>
          if op = '+' then M + (digitsToNat ds.data : Int)
          else M - (digitsToNat ds.data : Int))) := by
  have hcond : (pyStartswith (String.singleton op ++ ds) "+"
      || pyStartswith (String.singleton op ++ ds) "-") = true := by
    rw [Bool.or_eq_true]
    rcases hop with h | h <;> subst h
    · exact Or.inl (pyStartswith_sign '+' "+" ds rfl)
    · exact Or.inr (pyStartswith_sign '-' "-" ds rfl)
  have heval : pyEvalArith (pyStr M ++ (String.singleton op ++ ds))
      = some (if op = '+' then M + (digitsToNat ds.data : Int)
              else M - (digitsToNat ds.data : Int)) := by
    rw [pyEvalArith]
    have hdata : (pyStr M ++ (String.singleton op ++ ds)).data
        = (pyStr M).data ++ op :: ds.data := by
      rw [String.data_append, data_sign_append]
    rw [hdata]
    exact pyEvalArith_expr M op ds.data hop h1 h2
  rw [set_volume, hcond]
  simp only [if_true, hM, heval, setvolume]

lemma pyMax_isSome (l : List Int) (h : l ≠ []) : ∃ M, pyMax l = some M := by
  rcases l with _ | ⟨x, xs⟩
  · exact absurd rfl h
  · exact ⟨xs.foldl max x, rfl⟩

/-- **C1 (code bug)** — the spec requires every value written to the mixer
to lie in [0,100] (saturating clamp), but `set_volume` performs no clamp:
at volume 98, the volume-up delta `"+5"` writes 103 to the mixer. -/
theorem c1_unclamped_write_exceeds_100 :
    set_volume [98] (VolumeArg.str "+5") = Except.ok [103] ∧ (100 : Int) < 103 :=
  ⟨rfl, by decide⟩

/-- **C7 (code bug)** — the spec requires any relative-volume string that
is not exactly a sign followed by a non-negative integer to be rejected
(`InvalidVolume`) rather than evaluated; the source instead feeds the
string to `eval`: `"+5+5"` is outside the spec's grammar, yet with the
mixer at 40 the code evaluates `40+5+5` and happily writes 50. -/
theorem c7_malformed_delta_is_evaluated :
    isSignedDelta "+5+5" = false ∧
      set_volume [40] (VolumeArg.str "+5+5") = Except.ok [50] :=
  ⟨by decide, rfl⟩

/-- **C9** — relative deltas are applied to the maximum current
per-channel volume and the result is written to every channel, and
`set_volume("+k")` followed by `set_volume("-k")` restores the
pre-sequence volume (the code never clamps, so no clamping can
intervene).  The non-negative integer `k` is quantified as its digit
string `ds`. -/
theorem c9_plus_minus_cancel (channels : List Int) (ds : String)
    (h1 : channels ≠ []) (h2 : ds.data ≠ []) (h3 : ds.data.all Char.isDigit = true) :
    ∃ M : Int, pyMax channels = some M ∧
      set_volume channels (VolumeArg.str ("+" ++ ds))
        = Except.ok (channels.map (fun _ => M + (digitsToNat ds.data : Int))) ∧
      set_volume (channels.map (fun _ => M + (digitsToNat ds.data : Int)))
          (VolumeArg.str ("-" ++ ds))
        = Except.ok (channels.map (fun _ => M)) ∧
      pyMax (channels.map (fun _ => M)) = pyMax channels := by
  obtain ⟨M, hM⟩ := pyMax_isSome channels h1
  have hplus : ("+" : String) = String.singleton '+' := rfl
  have hminus : ("-" : String) = String.singleton '-' := rfl
  refine ⟨M, hM, ?_, ?_, ?_⟩
  · rw [hplus]
    have h := set_volume_delta channels M '+' ds (Or.inl rfl) hM h2 h3
    simpa using h
  · rw [hminus]
    have hM2 : pyMax (channels.map (fun _ => M + (digitsToNat ds.data : Int)))
        = some (M + (digitsToNat ds.data : Int)) :=
      pyMax_map_const channels _ h1
    have h := set_volume_delta (channels.map (fun _ => M + (digitsToNat ds.data : Int)))
      (M + (digitsToNat ds.data : Int)) '-' ds (Or.inr rfl) hM2 h2 h3
    simpa [List.map_map, Function.comp] using h
  · rw [pyMax_map_const channels M h1, hM]

/-- Witness for C9 at a concrete mixer state and delta: channels
`[30, 40]`, delta string `"5"`. -/
theorem c9_plus_minus_cancel_witness :
    ∃ M : Int, pyMax [30, 40] = some M ∧
      set_volume [30, 40] (VolumeArg.str ("+" ++ "5"))
        = Except.ok (([30, 40] : List Int).map (fun _ => M + (digitsToNat "5".data : Int))) ∧
      set_volume (([30, 40] : List Int).map (fun _ => M + (digitsToNat "5".data : Int)))
          (VolumeArg.str ("-" ++ "5"))
        = Except.ok (([30, 40] : List Int).map (fun _ => M)) ∧
      pyMax (([30, 40] : List Int).map (fun _ => M)) = pyMax [30, 40] :=
  c9_plus_minus_cancel [30, 40] "5" (by decide) (by decide) (by decide)

/-! ## Main-loop tick counter (`JukeBox.run`, lines 120–133)

```
counter = 0
while True:
    time.sleep(0.1)
    if counter % 20 == 0:
        counter = 1
        <link health check>
    counter += 1
    ...
```
-/

/-- The health-check condition tested at the top of each iteration. -/
def healthFires (c : Nat) : Bool := c % 20 == 0

/-- Counter update over one full iteration: the reset to 1 on a health
check, then the unconditional `counter += 1`. -/
def counterNext (c : Nat) : Nat := (if c % 20 == 0 then 1 else c) + 1

/-- Counter value after `k` completed loop iterations (it starts at 0). -/
def counterState : Nat → Nat
  | 0 => 0
  | k + 1 => counterNext (counterState k)

/-- Does the link health check fire on tick `n` (ticks are 1-based: tick
`n` begins with the counter at `counterState (n - 1)`)? -/
def firesOnTick (n : Nat) : Bool := healthFires (counterState (n - 1))

lemma counterState_closed : ∀ k, counterState (k + 1) = k % 19 + 2 := by
  intro k
  induction k with
  | zero => rfl
  | succ m ih =>
    rw [show m + 1 + 1 = (m + 1) + 1 from rfl, counterState, ih, counterNext]
    simp only [beq_iff_eq]
    split
    · omega
    · omega

/-- **C3 counterexample** — with the counter starting at 0, the reset
rule makes the very first health check fire on tick 1 (not 20), and after
the reset the period is 19 ticks, so tick 39 fires while tick 40 does
not, contradicting "first at tick 20 and every 20 thereafter". -/
theorem c3_tick_schedule_counterexample :
    firesOnTick 1 = true ∧ firesOnTick 20 = true ∧
      firesOnTick 39 = true ∧ firesOnTick 40 = false := by
  refine ⟨rfl, ?_, ?_, ?_⟩ <;> decide

/-- **C3 (amended)** — the counter reset rule makes the health check fire
on tick 1 and every 19 ticks thereafter: exactly on the ticks congruent
to 1 modulo 19 (1, 20, 39, …). -/
theorem c3_health_check_every_19 (n : Nat) (h : 1 ≤ n) :
    firesOnTick n = true ↔ n % 19 = 1 := by
  rcases n with _ | m
  · omega
  rcases m with _ | m2
  · decide
  · rw [firesOnTick, show m2 + 1 + 1 - 1 = m2 + 1 from rfl, counterState_closed,
      healthFires, beq_iff_eq]
    omega

/-- Witness for C3 (amended) at tick 20: the second firing. -/
theorem c3_health_check_every_19_witness :
    1 ≤ 20 ∧ (firesOnTick 20 = true ↔ 20 % 19 = 1) :=
  ⟨by decide, c3_health_check_every_19 20 (by decide)⟩

/-! ## Button sampling (`JukeBox.run`, lines 138–144)

```
for pin, handler in zip(self.pins, Consts.PIN_HANDLERS):
    if gpio.input(pin):
        getattr(self, f'{handler}_handler')()
        # Neglect further actions while button is pressed
        while gpio.input(pin):
            time.sleep(0.3)
```
-/

/-- The per-pin control flow, as a function of the successive GPIO reads
of that pin: in normal sampling (`holding = false`) a high read invokes
the handler once and enters the hold-wait; in the hold-wait
(`holding = true`) reads are discarded until a low one, which resumes
normal sampling.  Returns the number of handler invocations over the
read sequence. -/
def pinLoopCount (holding : Bool) : List Bool → Nat
  | [] => 0
  | b :: rest =>
      if holding then
        if b then pinLoopCount true rest else pinLoopCount false rest
      else
        if b then 1 + pinLoopCount true rest else pinLoopCount false rest

/-- Number of press edges in a read sequence: high reads whose preceding
read (`prev`; the pin idles low — pull-down) was low. -/
def pressEdges (prev : Bool) : List Bool → Nat
  | [] => 0
  | b :: rest => (if b && !prev then 1 else 0) + pressEdges b rest

lemma pinLoopCount_eq_pressEdges :
    ∀ (s : List Bool) (holding : Bool), pinLoopCount holding s = pressEdges holding s := by
  intro s
  induction s with
  | nil => intro holding; rfl
  | cons b rest ih =>
    intro holding
    cases holding <;> cases b <;>
      simp [pinLoopCount, pressEdges, ih]

/-- **C4** — over any sequence of reads of a configured pin (starting in
normal sampling, the pin idle low), the number of handler invocations
equals the number of press edges: each press edge invokes the bound
handler exactly once, and no further invocation happens for that pin
until it is observed reading low again. -/
theorem c4_one_invocation_per_press_edge (s : List Bool) :
    pinLoopCount false s = pressEdges false s :=
  pinLoopCount_eq_pressEdges s false

/-! ## Link-loss recovery (`JukeBox.run` lines 124–131 and the `_setup_*`
methods)

The health-check branch and the setup helpers are straight-line calls on
the collaborators; their behavior relevant to the claims is the sequence
of collaborator operations they perform, modelled as an event trace. -/

/-- Collaborator operations performed by the supervisor. -/
inductive REvent
  | playerStop
  | btInitialize
  | btConnect
  | mixerInit
  | mixerUnmute
  | mixerSetVolume (v : Int)
  | playerInitialize
  | trackNext
  | playerLoad
  | playerPlay
  | clearEndFlag
  | attachEndCallback
  | gpioSetup
deriving DecidableEq

/-- `JukeBox._setup_bluetooth`: `bluetooth.initialize()` then the
blocking `bluetooth.connect()` loop, which returns only once `connected`
is observed true (retrying every 3 s). -/
def setup_bluetooth_events : List REvent :=
  [REvent.btInitialize, REvent.btConnect]

/-- `JukeBox._setup_sound`: `audio.initialize()` (itself a blocking
retry loop reacquiring the mixer), `unmute()`, then
`set_volume(start_volume)`. -/
def setup_sound_events (start_volume : Int) : List REvent :=
  [REvent.mixerInit, REvent.mixerUnmute, REvent.mixerSetVolume start_volume]

/-- `JukeBox.play_next` with no file argument: `get_song`, `load_file`,
`play`, then `finished = False`. -/
def play_next_events : List REvent :=
  [REvent.trackNext, REvent.playerLoad, REvent.playerPlay, REvent.clearEndFlag]

/-- `JukeBox._setup_player`: `player.initialize()` (fresh vlc instance,
media player and event manager — the new playback session), `play_next()`,
then attaching the end-of-track callback. -/
def setup_player_events : List REvent :=
  [REvent.playerInitialize] ++ play_next_events ++ [REvent.attachEndCallback]

/-- The health-check body in `run`: when `bluetooth.connected` is false,
`player.stop()` (destroying the running playback session), then
`_setup_bluetooth()`, `_setup_sound()`, `_setup_player()`; when the link
is up, nothing.  `_setup_gpio` is not called here. -/
def health_check_events (connected : Bool) (start_volume : Int) : List REvent :=
  if connected then []
  else [REvent.playerStop] ++ setup_bluetooth_events
    ++ setup_sound_events start_volume ++ setup_player_events

/-- Recognizer for the GPIO setup operation. -/
def isGpioSetup : REvent → Bool
  | .gpioSetup => true
  | _ => false

/-- **C2** — on a health-check tick with the link down, the supervisor
performs, in this exact order: `player.stop()` first (the old playback
session is destroyed before `playerInitialize` constructs the new one),
then the bluetooth link (initialize + blocking connect), then the mixer
(reinit, unmute, volume to `start_volume`), then a fresh playback session
that loads and plays a new track; and GPIO setup is not repeated. -/
theorem c2_recovery_sequence (start_volume : Int) :
    health_check_events false start_volume
      = [REvent.playerStop,
          REvent.btInitialize, REvent.btConnect,
          REvent.mixerInit, REvent.mixerUnmute, REvent.mixerSetVolume start_volume,
          REvent.playerInitialize, REvent.trackNext, REvent.playerLoad,
          REvent.playerPlay, REvent.clearEndFlag, REvent.attachEndCallback]
      ∧ (health_check_events false start_volume).filter isGpioSetup = [] := by
  exact ⟨rfl, rfl⟩

/-! ## One full tick of the main loop (`JukeBox.run` lines 121–144)

The tick trace makes the hold-wait's exclusivity provable: the health
probe and the end-of-track flag read happen before the pin scan, and
inside the hold-wait nothing but that pin's reads and the 300 ms sleeps
occurs. -/

/-- Events of one loop iteration. -/
inductive TEvent
  | sleepMs (ms : Nat)
  | linkProbe (connected : Bool)
  | recoveryRun
  | observeFinished (finished : Bool)
  | playNextRun
  | readPin (pin : Nat) (high : Bool)
  | invoke (handler : String)
deriving DecidableEq

/-- The high portion of a hold-wait: `n` further high reads of the held
pin, each followed by `time.sleep(0.3)`. -/
def holdHigh (pin : Nat) : Nat → List TEvent
  | 0 => []
  | n + 1 => TEvent.readPin pin true :: TEvent.sleepMs 300 :: holdHigh pin n

/-- `while gpio.input(pin): time.sleep(0.3)` — `n` high reads (each
followed by the 300 ms sleep), then the low read that exits the loop. -/
def hold_wait_events (pin : Nat) (n : Nat) : List TEvent :=
  holdHigh pin n ++ [TEvent.readPin pin false]

/-- The pin scan: per configured pin, the `if gpio.input(pin)` read;
when it is high, the handler dispatch followed by the hold-wait.  Each
pin's observed behavior within the tick is `(pin, handler, pressed, n)`:
`pressed` is the value of the guarding read, `n` the number of high
hold-wait reads before release. -/
def pin_scan_events : List (Nat × String × Bool × Nat) → List TEvent
  | [] => []
  | (pin, handler, pressed, n) :: rest =>
      (if pressed then
        TEvent.readPin pin true :: TEvent.invoke handler :: hold_wait_events pin n
      else [TEvent.readPin pin false]) ++ pin_scan_events rest

/-- One iteration of `run`'s `while True` body: the 100 ms sleep; on a
counter hit, the link probe (and on a down link the recovery); the
`player.finished` read (and on a set flag, `play_next`); then the pin
scan. -/
def tick_events (counter : Nat) (connected finished : Bool)
    (pins : List (Nat × String × Bool × Nat)) : List TEvent :=
  [TEvent.sleepMs 100]
    ++ (if counter % 20 == 0 then
          TEvent.linkProbe connected :: (if connected then [] else [TEvent.recoveryRun])
        else [])
    ++ [TEvent.observeFinished finished]
    ++ (if finished then [TEvent.playNextRun] else [])
    ++ pin_scan_events pins

/-- Events permitted between a handler dispatch and the release of its
pin: high reads of that same pin and the 300 ms hold sleeps. -/
def isPinHold (pin : Nat) (e : TEvent) : Bool :=
  match e with
  | .readPin q true => q == pin
  | .sleepMs ms => ms == 300
  | _ => false

lemma holdHigh_all_isPinHold (pin : Nat) :
    ∀ n, (holdHigh pin n).all (isPinHold pin) = true := by
  intro n
  induction n with
  | zero => rfl
  | succ m ih => simp [holdHigh, isPinHold, ih]

lemma pin_scan_events_append (a b : List (Nat × String × Bool × Nat)) :
    pin_scan_events (a ++ b) = pin_scan_events a ++ pin_scan_events b := by
  induction a with
  | nil => rfl
  | cons x rest ih =>
    rcases x with ⟨pin, handler, pressed, n⟩
    simp [pin_scan_events, ih]

/-- **C10** — while a configured pin keeps reading high after its handler
ran, the loop does nothing else: in the tick trace, everything strictly
between the handler dispatch and that pin's low release read consists
solely of high reads of that same pin and 300 ms hold sleeps — no health
probe, no read of the end-of-track flag, no sampling of any other pin.
Only after the low read does the remainder of the tick (`t2`) run. -/
theorem c10_hold_wait_blocks_loop (counter : Nat) (connected finished : Bool)
    (pre : List (Nat × String × Bool × Nat)) (pin : Nat) (handler : String) (n : Nat)
    (rest : List (Nat × String × Bool × Nat)) :
    (∃ t1 t2,
      tick_events counter connected finished (pre ++ (pin, handler, true, n) :: rest)
        = t1 ++ TEvent.invoke handler :: (holdHigh pin n ++ TEvent.readPin pin false :: t2))
    ∧ (holdHigh pin n).all (isPinHold pin) = true := by
  refine ⟨⟨[TEvent.sleepMs 100]
    ++ (if counter % 20 == 0 then
          TEvent.linkProbe connected :: (if connected then [] else [TEvent.recoveryRun])
        else [])
    ++ [TEvent.observeFinished finished]
    ++ (if finished then [TEvent.playNextRun] else [])
    ++ pin_scan_events pre ++ [TEvent.readPin pin true],
    pin_scan_events rest, ?_⟩, holdHigh_all_isPinHold pin n⟩
  rw [tick_events, pin_scan_events_append]
  simp [pin_scan_events, hold_wait_events]

/-! ## Process lifetime (`main.py`, `JukeBox.__init__`, `JukeBox.run`)

`main.py` constructs `JukeBox()` and then calls `run()`.  `__init__`
performs, in order: bluetooth setup (a bad MAC raises there), sound
setup, player setup (`play_next` → `get_song` raises `NoPlayableFiles`
there on an empty library), and **last** GPIO setup.  `run` wraps the
loop in `try … except KeyboardInterrupt … finally: gpio.cleanup()`; the
`finally` is the only call site of `gpio.cleanup`. -/

/-- How startup ends: success or one of the fatal startup errors. -/
inductive StartupOutcome
  | ok
  | badAddress
  | noPlayableFiles
deriving DecidableEq

/-- How the (otherwise infinite) `run` loop exits. -/
inductive LoopExit
  | interrupt
  | propagatedError
deriving DecidableEq

/-- Lifecycle events of the process. -/
inductive PEvent
  | btSetupDone
  | soundSetupDone
  | playerSetupDone
  | gpioSetupDone
  | loopRan
  | farewellLogged
  | gpioCleanup
deriving DecidableEq

/-- Steps of `JukeBox.__init__` completed before it returns or raises:
a `BadAddress` raises inside `_setup_bluetooth`; `NoPlayableFiles`
raises inside `_setup_player` (before `_setup_gpio` is reached). -/
def init_events : StartupOutcome → List PEvent
  | .badAddress => []
  | .noPlayableFiles => [PEvent.btSetupDone, PEvent.soundSetupDone]
  | .ok => [PEvent.btSetupDone, PEvent.soundSetupDone,
      PEvent.playerSetupDone, PEvent.gpioSetupDone]

/-- `JukeBox.run`: the loop runs; `KeyboardInterrupt` is caught and
logged, any other exception propagates; either way the `finally` clause
calls `gpio.cleanup()` exactly once. -/
def run_events : LoopExit → List PEvent
  | .interrupt => [PEvent.loopRan, PEvent.farewellLogged, PEvent.gpioCleanup]
  | .propagatedError => [PEvent.loopRan, PEvent.gpioCleanup]

/-- The whole process (`main.py`): `__init__`, then — only when startup
succeeded — `run()`.  A startup exception propagates out of `JukeBox()`
before `run` is ever entered. -/
def process_events (o : StartupOutcome) (e : LoopExit) : List PEvent :=
  init_events o ++ (if o = StartupOutcome.ok then run_events e else [])

/-- Recognizer for `gpio.cleanup`. -/
def isCleanup : PEvent → Bool
  | .gpioCleanup => true
  | _ => false

/-- Recognizer for `gpio.setup`. -/
def isGpioSetupDone : PEvent → Bool
  | .gpioSetupDone => true
  | _ => false

/-- **C5 counterexample** — on the `NoPlayableFiles` fatal-startup path
the process invokes `gpio.cleanup` zero times, not once: the error is
raised in `__init__`, before `run`'s `finally` (the only cleanup site)
can ever execute. -/
theorem c5_startup_error_no_cleanup_counterexample :
    (process_events StartupOutcome.noPlayableFiles LoopExit.interrupt).countP isCleanup
      = 0 := by
  decide

/-- **C5 (amended)** — `gpio.cleanup` runs exactly once on every exit of
`run` (interrupt or propagated error); on a fatal startup error
(`BadAddress`, `NoPlayableFiles`) it never runs — but GPIO setup has not
run either, since those errors are raised before `_setup_gpio`. -/
theorem c5_cleanup_exactly_once_when_run (o : StartupOutcome) (e : LoopExit) :
    (process_events o e).countP isCleanup
        = (if o = StartupOutcome.ok then 1 else 0)
      ∧ (process_events o e).countP isGpioSetupDone
        = (if o = StartupOutcome.ok then 1 else 0) := by
  cases o <;> cases e <;> exact ⟨rfl, rfl⟩
